import Mathlib

/-!
Shallow embedding of the flashcard parser and exporter of `src/app.py`
(`parse_flashcards` and `export_flashcards`), together with proofs of the
specified properties.  Python strings are modelled as lists of unicode
scalar values (`PyStr`), Python `None`-or-dict state as `Option`, and the
mutable list/dict updates of the source as explicit state passing.
-/

/-- Python strings, modelled as lists of unicode scalar values. -/
abbrev PyStr := List Char

/-- The whitespace characters removed by Python `str.strip()` (the ASCII ones;
the inputs we reason about contain no exotic unicode spaces). -/
def isPySpace (c : Char) : Bool :=
  c == ' ' || c == '\t' || c == '\n' || c == '\r' || c == '\x0b' || c == '\x0c'

/-- Python `str.lstrip()`. -/
def lstrip (s : PyStr) : PyStr := s.dropWhile isPySpace

/-- Python `str.rstrip()`. -/
def rstrip (s : PyStr) : PyStr := (s.reverse.dropWhile isPySpace).reverse

/-- Python `str.strip()`. -/
def pyStrip (s : PyStr) : PyStr := rstrip (lstrip s)

/-- Python `s.startswith(pat)`. -/
def startswith : PyStr → PyStr → Bool
  | _, [] => true
  | [], _ :: _ => false
  | c :: s, p :: ps => c == p && startswith s ps

/-- Python `text.split('\n')`; note `"".split('\n') == ['']`. -/
def splitNl : PyStr → List PyStr
  | [] => [[]]
  | c :: s =>
    if c = '\n' then [] :: splitNl s
    else
      match splitNl s with
      | [] => [[c]]
      | l :: ls => (c :: l) :: ls

/-- One flashcard, the dict `{'question': ..., 'answer': ...}` built by
`parse_flashcards` (both keys are present from creation on). -/
structure Flashcard where
  question : PyStr
  answer : PyStr
deriving DecidableEq

/-- The body of the `for line in text.split('\n')` loop of `parse_flashcards`
(src/app.py lines 47-62): state is the pair (flashcards list, current_q). -/
def parseLine (st : List Flashcard × Option Flashcard) (rawLine : PyStr) :
    List Flashcard × Option Flashcard :=
  let line := pyStrip rawLine
  if startswith line "Q:".data || startswith line "Question:".data then
    let cards := match st.2 with
      | some c => st.1 ++ [c]
      | none => st.1
    (cards, some ⟨pyStrip (line.drop 2), []⟩)
  else if startswith line "A:".data || startswith line "Answer:".data then
    match st.2 with
    | some c => (st.1 ++ [{ c with answer := pyStrip (line.drop 2) }], none)
    | none => (st.1, none)
  else
    match st.2 with
    | some c =>
      if c.answer = [] then
        (st.1, some { c with question := c.question ++ ' ' :: line })
      else
        (st.1, some { c with answer := c.answer ++ ' ' :: line })
    | none => (st.1, none)

/-- Python function `parse_flashcards` of src/app.py (lines 42-67). -/
def parse_flashcards (text : PyStr) : List Flashcard :=
  let fin := (splitNl text).foldl parseLine ([], none)
  match fin.2 with
  | some c => fin.1 ++ [c]
  | none => fin.1

/-- Lower-case hexadecimal digit, as used by `json.dumps` in `\uXXXX` escapes. -/
def hexDig (d : Nat) : Char :=
  if d < 10 then Char.ofNat (48 + d) else Char.ofNat (87 + d)

/-- Four lower-case hex digits of a number below 0x10000. -/
def hex4 (n : Nat) : PyStr :=
  [hexDig (n / 4096 % 16), hexDig (n / 256 % 16), hexDig (n / 16 % 16), hexDig (n % 16)]

/-- One character of a string, as serialized by Python `json.dumps` with the
default `ensure_ascii=True`: printable ASCII except quote and backslash is
literal, the short escapes are used where they exist, all other characters
become `\uXXXX` (a surrogate pair for astral characters). -/
def escChar (c : Char) : PyStr :=
  if c = '"' then ['\\', '"']
  else if c = '\\' then ['\\', '\\']
  else if c = '\n' then ['\\', 'n']
  else if c = '\r' then ['\\', 'r']
  else if c = '\t' then ['\\', 't']
  else if c.toNat = 8 then ['\\', 'b']
  else if c.toNat = 12 then ['\\', 'f']
  else if c.toNat < 32 then '\\' :: 'u' :: hex4 c.toNat
  else if c.toNat < 127 then [c]
  else if c.toNat < 65536 then '\\' :: 'u' :: hex4 c.toNat
  else
    '\\' :: 'u' :: hex4 (55296 + (c.toNat - 65536) / 1024) ++
      ('\\' :: 'u' :: hex4 (56320 + (c.toNat - 65536) % 1024))

/-- Serialization of a whole string, escaped as `json.dumps` does (without
the outer quotes). -/
def escStr : PyStr → PyStr
  | [] => []
  | c :: s => escChar c ++ escStr s

/-- One card as printed by `json.dumps(flashcards, indent=2)`. -/
def dumpsCard (c : Flashcard) : PyStr :=
  "  \x7b\n    \"question\": \"".data ++ escStr c.question ++
    "\",\n    \"answer\": \"".data ++ escStr c.answer ++ "\"\n  \x7d".data

/-- The remaining cards, each preceded by the item separator `",\n"`. -/
def dumpsRest : List Flashcard → PyStr
  | [] => []
  | c :: cs => ",\n".data ++ dumpsCard c ++ dumpsRest cs

/-- The document produced by `json.dumps(flashcards, indent=2)`
(src/app.py line 72). -/
def json_dumps : List Flashcard → PyStr
  | [] => "[]".data
  | c :: cs => "[\n".data ++ dumpsCard c ++ dumpsRest cs ++ "\n]".data

/-- A field needs quoting under `csv.writer`'s default QUOTE_MINIMAL dialect
iff it contains the delimiter, the quote character, or a line-break. -/
def csvNeedsQuote (f : PyStr) : Bool :=
  f.any fun c => c == ',' || c == '"' || c == '\r' || c == '\n'

/-- One csv field, quote-wrapped with doubled quotes when needed. -/
def csvField (f : PyStr) : PyStr :=
  if csvNeedsQuote f then
    '"' :: f.foldr (fun c acc => (if c = '"' then ['"', '"'] else [c]) ++ acc) [] ++ ['"']
  else f

/-- One `csv.writer.writerow([q, a])` call: two fields joined by the comma
delimiter, terminated by the default `"\r\n"` line terminator. -/
def csvRow (q a : PyStr) : PyStr :=
  csvField q ++ ',' :: csvField a ++ "\r\n".data

/-- The data rows of the csv export, one per card, in order. -/
def csvRows : List Flashcard → PyStr
  | [] => []
  | c :: cs => csvRow c.question c.answer ++ csvRows cs

/-- The anki export body: `f"{card['question']}\t{card['answer']}\n"` per card. -/
def ankiLines : List Flashcard → PyStr
  | [] => []
  | c :: cs => c.question ++ '\t' :: c.answer ++ '\n' :: ankiLines cs

/-- Python function `export_flashcards` of src/app.py (lines 69-85). -/
def export_flashcards (flashcards : List Flashcard) (format : PyStr) : PyStr :=
  if format = "json".data then json_dumps flashcards
  else if format = "csv".data then csvRow "Question".data "Answer".data ++ csvRows flashcards
  else if format = "anki".data then ankiLines flashcards
  else []

/-- The whitespace `json.loads` skips between tokens. -/
def isJsonWs (c : Char) : Bool :=
  c == ' ' || c == '\t' || c == '\n' || c == '\r'

/-- Drop leading JSON whitespace. -/
def skipWs : PyStr → PyStr
  | [] => []
  | c :: s => if isJsonWs c then skipWs s else c :: s

/-- Consume one expected character. -/
def expectChar (c : Char) : PyStr → Option PyStr
  | [] => none
  | x :: s => if x = c then some s else none

/-- Value of one hexadecimal digit (either case), as accepted in `\uXXXX`. -/
def hexVal (c : Char) : Option Nat :=
  if '0' ≤ c ∧ c ≤ '9' then some (c.toNat - 48)
  else if 'a' ≤ c ∧ c ≤ 'f' then some (c.toNat - 87)
  else if 'A' ≤ c ∧ c ≤ 'F' then some (c.toNat - 55)
  else none

/-- Four hexadecimal digits read as one number. -/
def readHex4 (a b c d : Char) : Option Nat := do
  let x ← hexVal a
  let y ← hexVal b
  let z ← hexVal c
  let w ← hexVal d
  pure (4096 * x + 256 * y + 16 * z + w)

/-- Modelled from the spec: the strict JSON string reader of the decoder
("decoding the document must reconstruct the identical ordered sequence of
records"; the repository only calls `json.dumps`, its stdlib inverse
`json.loads` is not part of the source).  Reads the body of a quoted string
up to the closing quote: literal characters, the short escapes, and
`\uXXXX` escapes with surrogate-pair recombination; raw control characters
and lone surrogates (unrepresentable as unicode scalar values) are
rejected.  The fuel argument of the reader only bounds the recursion (one
unit per decoded character); any fuel above the number of decoded
characters is enough, and the wrapper `parseStrBody` supplies the input
length.  The `\uXXXX` alternative, `rec` being the reader of the
remaining body: -/
def psbU (rec : PyStr → Option (PyStr × PyStr)) (a b c d : Char) (s3 : PyStr) :
    Option (PyStr × PyStr) :=
  (readHex4 a b c d).bind fun n =>
    if 55296 ≤ n ∧ n ≤ 56319 then
      match s3 with
      | '\\' :: 'u' :: a2 :: b2 :: c3 :: d2 :: s4 =>
        (readHex4 a2 b2 c3 d2).bind fun m =>
          if 56320 ≤ m ∧ m ≤ 57343 then
            (rec s4).map fun p =>
              (Char.ofNat (65536 + 1024 * (n - 55296) + (m - 56320)) :: p.1, p.2)
          else none
      | _ => none
    else if 56320 ≤ n ∧ n ≤ 57343 then none
    else (rec s3).map fun p => (Char.ofNat n :: p.1, p.2)

/-- The escape alternatives after a backslash, `rec` being the reader of the
remaining body. -/
def psbEsc (rec : PyStr → Option (PyStr × PyStr)) (e : Char) (s2 : PyStr) :
    Option (PyStr × PyStr) :=
  if e = '"' then (rec s2).map fun p => ('"' :: p.1, p.2)
  else if e = '\\' then (rec s2).map fun p => ('\\' :: p.1, p.2)
  else if e = '/' then (rec s2).map fun p => ('/' :: p.1, p.2)
  else if e = 'b' then (rec s2).map fun p => ('\x08' :: p.1, p.2)
  else if e = 'f' then (rec s2).map fun p => ('\x0c' :: p.1, p.2)
  else if e = 'n' then (rec s2).map fun p => ('\n' :: p.1, p.2)
  else if e = 'r' then (rec s2).map fun p => ('\r' :: p.1, p.2)
  else if e = 't' then (rec s2).map fun p => ('\t' :: p.1, p.2)
  else if e = 'u' then
    match s2 with
    | a :: b :: c2 :: d :: s3 => psbU rec a b c2 d s3
    | _ => none
  else none

/-- The reader itself: closing quote, escape, or literal character. -/
def parseStrBodyF : Nat → PyStr → Option (PyStr × PyStr)
  | 0, _ => none
  | fuel + 1, s =>
    match s with
    | [] => none
    | c :: s =>
      if c = '"' then some ([], s)
      else if c = '\\' then
        match s with
        | [] => none
        | e :: s2 => psbEsc (parseStrBodyF fuel) e s2
      else if c.toNat < 32 then none
      else (parseStrBodyF fuel s).map fun p => (c :: p.1, p.2)

/-- The string reader with enough fuel for its input. -/
def parseStrBody (s : PyStr) : Option (PyStr × PyStr) :=
  parseStrBodyF (s.length + 1) s

/-- Modelled from the spec: decoding of one serialized record — an object
with the fields `question` and `answer` in the order the exporter writes
them, with arbitrary whitespace between tokens. -/
def parseCard (s : PyStr) : Option (Flashcard × PyStr) :=
  (expectChar '\x7b' (skipWs s)).bind fun s1 =>
  (expectChar '"' (skipWs s1)).bind fun s2 =>
  (parseStrBody s2).bind fun p1 =>
  if p1.1 = "question".data then
    (expectChar ':' (skipWs p1.2)).bind fun s3 =>
    (expectChar '"' (skipWs s3)).bind fun s4 =>
    (parseStrBody s4).bind fun pq =>
    (expectChar ',' (skipWs pq.2)).bind fun s5 =>
    (expectChar '"' (skipWs s5)).bind fun s6 =>
    (parseStrBody s6).bind fun p2 =>
    if p2.1 = "answer".data then
      (expectChar ':' (skipWs p2.2)).bind fun s7 =>
      (expectChar '"' (skipWs s7)).bind fun s8 =>
      (parseStrBody s8).bind fun pa =>
      (expectChar '\x7d' (skipWs pa.2)).map fun s9 => ((⟨pq.1, pa.1⟩ : Flashcard), s9)
    else none
  else none

/-- Modelled from the spec: decoding of the remaining records of the
serialized sequence, each introduced by a comma, until the closing
bracket.  The fuel argument only bounds the recursion; any fuel at least
the number of remaining records is enough. -/
def parseItemsRest : Nat → PyStr → Option (List Flashcard × PyStr)
  | 0, _ => none
  | fuel + 1, s =>
    match skipWs s with
    | ']' :: r => some ([], r)
    | ',' :: r =>
      (parseCard r).bind fun cp =>
      (parseItemsRest fuel cp.2).map fun csr => (cp.1 :: csr.1, csr.2)
    | _ => none

/-- Modelled from the spec: the decoder of the structured export — the
inverse direction of the round-trip law "decoding the document must
reconstruct the identical ordered sequence of records".  Decodes a JSON
array of question/answer objects, requiring the whole input to be
consumed. -/
def decode_flashcards (s : PyStr) : Option (List Flashcard) :=
  (expectChar '[' (skipWs s)).bind fun s1 =>
  match skipWs s1 with
  | ']' :: r => if skipWs r = [] then some [] else none
  | _ =>
    (parseCard s1).bind fun cp =>
    (parseItemsRest (cp.2.length + 1) cp.2).bind fun csr =>
    if skipWs csr.2 = [] then some (cp.1 :: csr.1) else none
/-- Does the trimmed line start a new question (a question marker line)? -/
def isQLine (l : PyStr) : Bool :=
  startswith (pyStrip l) "Q:".data || startswith (pyStrip l) "Question:".data

/-- Does the trimmed line carry any of the four recognized markers? -/
def isMarkerLine (l : PyStr) : Bool :=
  isQLine l || (startswith (pyStrip l) "A:".data || startswith (pyStrip l) "Answer:".data)

/-- One when a pending record exists, zero otherwise. -/
def curCount : Option Flashcard → Nat
  | none => 0
  | some _ => 1

/-- The text of N well-formed question/answer pairs: each pair is one line
starting with "Q:" followed by one line starting with "A:". -/
def pairsText : List (PyStr × PyStr) → PyStr
  | [] => []
  | p :: rest =>
    "Q:".data ++ p.1 ++ '\n' ::
      ("A:".data ++ p.2 ++ (if rest.isEmpty then [] else '\n' :: pairsText rest))

theorem lstrip_cons_of_nspace {c : Char} (h : isPySpace c = false) (s : PyStr) :
    lstrip (c :: s) = c :: s := by
  simp [lstrip, List.dropWhile_cons, h]

theorem rstrip_append (m q : PyStr) (hm : rstrip m = m) :
    rstrip (m ++ q) = m ++ rstrip q := by
  unfold rstrip at *
  rw [List.reverse_append, List.dropWhile_append]
  rcases h : (List.reverse q).dropWhile isPySpace with _ | ⟨a, t⟩
  · simpa [h] using hm
  · simp [h]

theorem pyStrip_cons_append {c : Char} (hc : isPySpace c = false) (ms q : PyStr)
    (hm : rstrip (c :: ms) = c :: ms) :
    pyStrip ((c :: ms) ++ q) = (c :: ms) ++ rstrip q := by
  unfold pyStrip
  rw [show ((c :: ms) ++ q) = c :: (ms ++ q) from rfl, lstrip_cons_of_nspace hc,
    show (c :: (ms ++ q)) = (c :: ms) ++ q from rfl, rstrip_append _ _ hm]

theorem rstrip_idem (s : PyStr) : rstrip (rstrip s) = rstrip s := by
  unfold rstrip
  rw [List.reverse_reverse, List.dropWhile_idempotent]

theorem rstrip_cons (c : Char) (t : PyStr) :
    rstrip (c :: t) = if isPySpace c ∧ rstrip t = [] then [] else c :: rstrip t := by
  unfold rstrip
  rw [show (c :: t).reverse = t.reverse ++ [c] from by simp, List.dropWhile_append]
  rcases h : t.reverse.dropWhile isPySpace with _ | ⟨a, u⟩
  · cases hc : isPySpace c <;> simp [List.dropWhile_cons, hc, h]
  · simp [h]

theorem lstrip_rstrip_comm (s : PyStr) : lstrip (rstrip s) = rstrip (lstrip s) := by
  induction s with
  | nil => rfl
  | cons c t ih =>
    cases hc : isPySpace c with
    | false =>
      rw [rstrip_cons, if_neg (by simp [hc]), lstrip_cons_of_nspace hc,
        lstrip_cons_of_nspace hc, rstrip_cons, if_neg (by simp [hc])]
    | true =>
      have hl : lstrip (c :: t) = lstrip t := by simp [lstrip, List.dropWhile_cons, hc]
      rw [rstrip_cons, hl]
      by_cases ht : rstrip t = []
      · rw [if_pos ⟨hc, ht⟩]
        exact ht ▸ ih
      · rw [if_neg (by simp [ht])]
        have : lstrip (c :: rstrip t) = lstrip (rstrip t) := by
          simp [lstrip, List.dropWhile_cons, hc]
        rw [this, ih]

theorem pyStrip_rstrip (s : PyStr) : pyStrip (rstrip s) = pyStrip s := by
  unfold pyStrip
  rw [lstrip_rstrip_comm, rstrip_idem]

theorem splitNl_no_nl (l : PyStr) (h : '\n' ∉ l) : splitNl l = [l] := by
  induction l with
  | nil => rfl
  | cons c t ih =>
    simp only [List.mem_cons, not_or] at h
    rw [splitNl, if_neg (fun hh => h.1 hh.symm), ih h.2]

theorem splitNl_append_nl (l r : PyStr) (h : '\n' ∉ l) :
    splitNl (l ++ '\n' :: r) = l :: splitNl r := by
  induction l with
  | nil => simp [splitNl]
  | cons c t ih =>
    simp only [List.mem_cons, not_or] at h
    rw [List.cons_append, splitNl, if_neg (fun hh => h.1 hh.symm), ih h.2]

theorem parseLine_of_q (st : List Flashcard × Option Flashcard) (l : PyStr)
    (h : isQLine l = true) :
    parseLine st l = (st.1 ++ (match st.2 with | some c => [c] | none => []),
      some ⟨pyStrip ((pyStrip l).drop 2), []⟩) := by
  unfold isQLine at h
  unfold parseLine
  rw [if_pos h]
  cases st.2 <;> simp

theorem parseLine_of_a (st : List Flashcard × Option Flashcard) (l : PyStr)
    (hq : isQLine l = false)
    (ha : (startswith (pyStrip l) "A:".data || startswith (pyStrip l) "Answer:".data) = true) :
    parseLine st l = (st.1 ++ (match st.2 with
      | some c => [{ c with answer := pyStrip ((pyStrip l).drop 2) }]
      | none => []), none) := by
  unfold isQLine at hq
  unfold parseLine
  rw [if_neg (by simp [hq]), if_pos ha]
  cases st.2 <;> simp

theorem parseLine_of_other (st : List Flashcard × Option Flashcard) (l : PyStr)
    (h : isMarkerLine l = false) :
    parseLine st l = (st.1, match st.2 with
      | some c =>
        if c.answer = [] then some { c with question := c.question ++ ' ' :: pyStrip l }
        else some { c with answer := c.answer ++ ' ' :: pyStrip l }
      | none => none) := by
  rw [isMarkerLine, Bool.or_eq_false_iff] at h
  obtain ⟨hQ, hA⟩ := h
  unfold isQLine at hQ
  unfold parseLine
  rw [if_neg (by simp [hQ]), if_neg (by simp [hA])]
  cases st.2 with
  | none => rfl
  | some c => by_cases hc : c.answer = [] <;> simp [hc]

theorem parseLine_count (st : List Flashcard × Option Flashcard) (l : PyStr) :
    (parseLine st l).1.length + curCount (parseLine st l).2
      = st.1.length + curCount st.2 + (if isQLine l then 1 else 0) := by
  by_cases hq : isQLine l = true
  · rw [parseLine_of_q st l hq, if_pos hq]
    cases h2 : st.2 <;> simp [curCount]
  · have hq' : isQLine l = false := by simpa using hq
    rw [if_neg hq]
    by_cases ha : (startswith (pyStrip l) "A:".data || startswith (pyStrip l) "Answer:".data) = true
    · rw [parseLine_of_a st l hq' ha]
      cases h2 : st.2 <;> simp [curCount]
    · have ha' : (startswith (pyStrip l) "A:".data
          || startswith (pyStrip l) "Answer:".data) = false := by simpa using ha
      have hm : isMarkerLine l = false := by rw [isMarkerLine, hq', ha']; rfl
      rw [parseLine_of_other st l hm]
      cases h2 : st.2 with
      | none => simp [curCount]
      | some c => by_cases hc : c.answer = [] <;> simp [curCount, hc]

theorem foldl_parseLine_count (lines : List PyStr) :
    ∀ st : List Flashcard × Option Flashcard,
      (lines.foldl parseLine st).1.length + curCount (lines.foldl parseLine st).2
        = st.1.length + curCount st.2 + lines.countP isQLine := by
  induction lines with
  | nil => intro st; simp
  | cons l ls ih =>
    intro st
    rw [List.foldl_cons, ih (parseLine st l), parseLine_count st l, List.countP_cons]
    omega

theorem startswith_cons (c : Char) (s : PyStr) (p : Char) (ps : PyStr) :
    startswith (c :: s) (p :: ps) = (c == p && startswith s ps) := rfl

theorem startswith_nil_pat (s : PyStr) : startswith s [] = true := by cases s <;> rfl

theorem parseLine_extends (st : List Flashcard × Option Flashcard) (l : PyStr) :
    ∃ t, (parseLine st l).1 = st.1 ++ t := by
  by_cases hq : isQLine l = true
  · rw [parseLine_of_q st l hq]
    exact ⟨_, rfl⟩
  · have hq' : isQLine l = false := by simpa using hq
    by_cases ha : (startswith (pyStrip l) "A:".data
        || startswith (pyStrip l) "Answer:".data) = true
    · rw [parseLine_of_a st l hq' ha]
      exact ⟨_, rfl⟩
    · have ha' : (startswith (pyStrip l) "A:".data
          || startswith (pyStrip l) "Answer:".data) = false := by simpa using ha
      have hm : isMarkerLine l = false := by rw [isMarkerLine, hq', ha']; rfl
      rw [parseLine_of_other st l hm]
      exact ⟨[], by simp⟩

theorem foldl_parseLine_extends (lines : List PyStr) :
    ∀ st, ∃ t, (lines.foldl parseLine st).1 = st.1 ++ t := by
  induction lines with
  | nil => exact fun st => ⟨[], by simp⟩
  | cons l ls ih =>
    intro st
    obtain ⟨t1, h1⟩ := parseLine_extends st l
    obtain ⟨t2, h2⟩ := ih (parseLine st l)
    exact ⟨t1 ++ t2, by rw [List.foldl_cons, h2, h1, List.append_assoc]⟩

theorem parse_flashcards_eq (text : PyStr) :
    parse_flashcards text = ((splitNl text).foldl parseLine ([], none)).1 ++
      (match ((splitNl text).foldl parseLine ([], none)).2 with
        | some c => [c] | none => []) := by
  unfold parse_flashcards
  cases h : ((splitNl text).foldl parseLine ([], none)).2 <;> simp [h]

theorem foldl_no_marker (lines : List PyStr) (h : ∀ l ∈ lines, isMarkerLine l = false) :
    lines.foldl parseLine ([], none) = ([], none) := by
  induction lines with
  | nil => rfl
  | cons l ls ih =>
    rw [List.foldl_cons, parseLine_of_other _ _ (h l (by simp))]
    exact ih fun x hx => h x (by simp [hx])

theorem parseLine_qline (cards : List Flashcard) (cur : Option Flashcard) (q : PyStr) :
    parseLine (cards, cur) ("Q:".data ++ q) =
      (cards ++ (match cur with | some c => [c] | none => []),
        some ⟨pyStrip q, []⟩) := by
  have hstrip : pyStrip ("Q:".data ++ q) = "Q:".data ++ rstrip q :=
    pyStrip_cons_append (by decide) ":".data q (by decide)
  have hq : isQLine ("Q:".data ++ q) = true := by
    rw [isQLine, hstrip]
    have e : "Q:".data ++ rstrip q = 'Q' :: ':' :: rstrip q := rfl
    rw [e]
    simp [startswith_cons, startswith_nil_pat, show "Q:".data = ['Q', ':'] from rfl]
  rw [parseLine_of_q _ _ hq, hstrip,
    show ("Q:".data ++ rstrip q).drop 2 = rstrip q from rfl, pyStrip_rstrip]

theorem parseLine_aline (cards : List Flashcard) (cur : Option Flashcard) (a : PyStr) :
    parseLine (cards, cur) ("A:".data ++ a) =
      (cards ++ (match cur with
        | some c => [{ c with answer := pyStrip a }] | none => []), none) := by
  have hstrip : pyStrip ("A:".data ++ a) = "A:".data ++ rstrip a :=
    pyStrip_cons_append (by decide) ":".data a (by decide)
  have e : "A:".data ++ rstrip a = 'A' :: ':' :: rstrip a := rfl
  have hq : isQLine ("A:".data ++ a) = false := by
    rw [isQLine, hstrip, e]
    simp [startswith_cons, show "Q:".data = ['Q', ':'] from rfl,
      show "Question:".data = ['Q','u','e','s','t','i','o','n',':'] from rfl]
  have ha : (startswith (pyStrip ("A:".data ++ a)) "A:".data
      || startswith (pyStrip ("A:".data ++ a)) "Answer:".data) = true := by
    rw [hstrip, e]
    simp [startswith_cons, startswith_nil_pat, show "A:".data = ['A', ':'] from rfl]
  rw [parseLine_of_a _ _ hq ha, hstrip,
    show ("A:".data ++ rstrip a).drop 2 = rstrip a from rfl, pyStrip_rstrip]

theorem parseLine_emptyline (cards : List Flashcard) :
    parseLine (cards, none) [] = (cards, none) := by
  rw [parseLine_of_other _ _ (by decide)]

theorem foldl_pairsText (pairs : List (PyStr × PyStr))
    (h : ∀ p ∈ pairs, '\n' ∉ p.1 ∧ '\n' ∉ p.2) :
    ∀ cards : List Flashcard,
      (splitNl (pairsText pairs)).foldl parseLine (cards, none) =
        (cards ++ pairs.map (fun p => ⟨pyStrip p.1, pyStrip p.2⟩), none) := by
  induction pairs with
  | nil =>
    intro cards
    show (splitNl []).foldl parseLine (cards, none) = (cards ++ [], none)
    rw [show splitNl [] = [[]] from rfl, List.foldl_cons, parseLine_emptyline,
      List.foldl_nil, List.append_nil]
  | cons p rest ih =>
    intro cards
    have hp := h p (by simp)
    have hq1 : '\n' ∉ "Q:".data ++ p.1 := by
      simp [show "Q:".data = ['Q', ':'] from rfl, hp.1]
    have ha1 : '\n' ∉ "A:".data ++ p.2 := by
      simp [show "A:".data = ['A', ':'] from rfl, hp.2]
    cases hr : rest.isEmpty with
    | true =>
      have hre : rest = [] := by simpa [List.isEmpty_iff] using hr
      subst hre
      rw [show pairsText [p] =
        ("Q:".data ++ p.1) ++ '\n' :: ("A:".data ++ p.2) from by
          simp [pairsText, List.append_assoc]]
      rw [splitNl_append_nl _ _ hq1, splitNl_no_nl _ ha1]
      rw [List.foldl_cons, List.foldl_cons, List.foldl_nil, parseLine_qline,
        parseLine_aline]
      simp
    | false =>
      have hre : rest ≠ [] := by
        intro hx; rw [hx] at hr; simp at hr
      rw [show pairsText (p :: rest) =
        ("Q:".data ++ p.1) ++ '\n' :: (("A:".data ++ p.2) ++ '\n' :: pairsText rest) from by
          simp [pairsText, hr, List.append_assoc]]
      rw [splitNl_append_nl _ _ hq1, splitNl_append_nl _ _ ha1]
      rw [List.foldl_cons, List.foldl_cons, parseLine_qline, parseLine_aline]
      rw [ih (fun x hx => h x (by simp [hx]))]
      simp

theorem hexVal_hexDig (d : Nat) (h : d < 16) : hexVal (hexDig d) = some d := by
  interval_cases d <;> decide

theorem char_valid_nat (c : Char) :
    c.toNat < 55296 ∨ (57343 < c.toNat ∧ c.toNat < 1114112) := c.valid

theorem hex_recombine (n : Nat) (h : n < 65536) :
    4096 * (n / 4096 % 16) + 256 * (n / 256 % 16) + 16 * (n / 16 % 16) + n % 16 = n := by
  omega


theorem psbF_zero (s : PyStr) : parseStrBodyF 0 s = none := rfl

theorem psbF_quote (k : Nat) (s : PyStr) : parseStrBodyF (k + 1) ('"' :: s) = some ([], s) := rfl

theorem psbF_esc (k : Nat) (e : Char) (s : PyStr) :
    parseStrBodyF (k + 1) ('\\' :: e :: s) = psbEsc (parseStrBodyF k) e s := rfl

theorem psbF_lit (k : Nat) (c : Char) (s : PyStr)
    (h1 : ¬c = '"') (h2 : ¬c = '\\') (h3 : ¬c.toNat < 32) :
    parseStrBodyF (k + 1) (c :: s) =
      (parseStrBodyF k s).map fun p => (c :: p.1, p.2) := by
  show (if c = '"' then some ([], s)
    else if c = '\\' then
      match s with
      | [] => none
      | e :: s2 => psbEsc (parseStrBodyF k) e s2
    else if c.toNat < 32 then none
    else (parseStrBodyF k s).map fun p => (c :: p.1, p.2)) =
      (parseStrBodyF k s).map fun p => (c :: p.1, p.2)
  rw [if_neg h1, if_neg h2, if_neg h3]

theorem psbEsc_quote (rec : PyStr → Option (PyStr × PyStr)) (s : PyStr) :
    psbEsc rec '"' s = (rec s).map fun p => ('"' :: p.1, p.2) := rfl

theorem psbEsc_bs (rec : PyStr → Option (PyStr × PyStr)) (s : PyStr) :
    psbEsc rec '\\' s = (rec s).map fun p => ('\\' :: p.1, p.2) := rfl

theorem psbEsc_b (rec : PyStr → Option (PyStr × PyStr)) (s : PyStr) :
    psbEsc rec 'b' s = (rec s).map fun p => ('\x08' :: p.1, p.2) := rfl

theorem psbEsc_f (rec : PyStr → Option (PyStr × PyStr)) (s : PyStr) :
    psbEsc rec 'f' s = (rec s).map fun p => ('\x0c' :: p.1, p.2) := rfl

theorem psbEsc_n (rec : PyStr → Option (PyStr × PyStr)) (s : PyStr) :
    psbEsc rec 'n' s = (rec s).map fun p => ('\n' :: p.1, p.2) := rfl

theorem psbEsc_r (rec : PyStr → Option (PyStr × PyStr)) (s : PyStr) :
    psbEsc rec 'r' s = (rec s).map fun p => ('\r' :: p.1, p.2) := rfl

theorem psbEsc_t (rec : PyStr → Option (PyStr × PyStr)) (s : PyStr) :
    psbEsc rec 't' s = (rec s).map fun p => ('\t' :: p.1, p.2) := rfl

theorem psbEsc_u (rec : PyStr → Option (PyStr × PyStr)) (a b c d : Char) (s3 : PyStr) :
    psbEsc rec 'u' (a :: b :: c :: d :: s3) = psbU rec a b c d s3 := rfl

theorem readHex4_hex4 (n : Nat) (h : n < 65536) :
    readHex4 (hexDig (n / 4096 % 16)) (hexDig (n / 256 % 16))
      (hexDig (n / 16 % 16)) (hexDig (n % 16)) = some n := by
  have h1 : n / 4096 % 16 < 16 := Nat.mod_lt _ (by norm_num)
  have h2 : n / 256 % 16 < 16 := Nat.mod_lt _ (by norm_num)
  have h3 : n / 16 % 16 < 16 := Nat.mod_lt _ (by norm_num)
  have h4 : n % 16 < 16 := Nat.mod_lt _ (by norm_num)
  simp [readHex4, hexVal_hexDig _ h1, hexVal_hexDig _ h2,
    hexVal_hexDig _ h3, hexVal_hexDig _ h4]
  omega

theorem psbU_nonsurrogate (rec : PyStr → Option (PyStr × PyStr)) (n : Nat)
    (hn : n < 65536) (hs : ¬(55296 ≤ n ∧ n ≤ 57343)) (s3 : PyStr) :
    psbU rec (hexDig (n / 4096 % 16)) (hexDig (n / 256 % 16))
      (hexDig (n / 16 % 16)) (hexDig (n % 16)) s3 =
      (rec s3).map fun p => (Char.ofNat n :: p.1, p.2) := by
  rw [psbU, readHex4_hex4 n hn]
  rw [Option.some_bind, if_neg (by omega : ¬(55296 ≤ n ∧ n ≤ 56319)),
    if_neg (by omega : ¬(56320 ≤ n ∧ n ≤ 57343))]

theorem psbU_surrogate (rec : PyStr → Option (PyStr × PyStr)) (n m : Nat)
    (ha : 55296 ≤ n) (hb : n ≤ 56319) (hc : 56320 ≤ m) (hd : m ≤ 57343) (s4 : PyStr) :
    psbU rec (hexDig (n / 4096 % 16)) (hexDig (n / 256 % 16))
      (hexDig (n / 16 % 16)) (hexDig (n % 16)) ('\\' :: 'u' :: hex4 m ++ s4) =
      (rec s4).map fun p =>
        (Char.ofNat (65536 + 1024 * (n - 55296) + (m - 56320)) :: p.1, p.2) := by
  rw [psbU, readHex4_hex4 n (by omega), Option.some_bind, if_pos ⟨ha, hb⟩]
  rw [show ('\\' :: 'u' :: hex4 m ++ s4) =
    '\\' :: 'u' :: hexDig (m / 4096 % 16) :: hexDig (m / 256 % 16) ::
      hexDig (m / 16 % 16) :: hexDig (m % 16) :: s4 from rfl]
  simp only []
  rw [readHex4_hex4 m (by omega), Option.some_bind, if_pos ⟨hc, hd⟩]

theorem parseStrBodyF_escStr (s rest : PyStr) :
    ∀ fuel, s.length + 1 ≤ fuel →
      parseStrBodyF fuel (escStr s ++ '"' :: rest) = some (s, rest) := by
  induction s with
  | nil =>
    intro fuel hf
    obtain ⟨k, rfl⟩ : ∃ k, fuel = k + 1 := ⟨fuel - 1, by omega⟩
    exact psbF_quote k rest
  | cons c s' ih =>
    intro fuel hf
    obtain ⟨k, rfl⟩ : ∃ k, fuel = k + 1 := ⟨fuel - 1, by omega⟩
    have hk : s'.length + 1 ≤ k := by
      simp only [List.length_cons] at hf; omega
    have ihk := ih k hk
    rw [escStr, List.append_assoc]
    by_cases h1 : c = '"'
    · subst h1
      rw [show escChar '"' ++ (escStr s' ++ '"' :: rest) =
        '\\' :: '"' :: (escStr s' ++ '"' :: rest) from rfl, psbF_esc, psbEsc_quote, ihk]
      rfl
    · by_cases h2 : c = '\\'
      · subst h2
        rw [show escChar '\\' ++ (escStr s' ++ '"' :: rest) =
          '\\' :: '\\' :: (escStr s' ++ '"' :: rest) from rfl, psbF_esc, psbEsc_bs, ihk]
        rfl
      · by_cases h3 : c = '\n'
        · subst h3
          rw [show escChar '\n' ++ (escStr s' ++ '"' :: rest) =
            '\\' :: 'n' :: (escStr s' ++ '"' :: rest) from rfl, psbF_esc, psbEsc_n, ihk]
          rfl
        · by_cases h4 : c = '\r'
          · subst h4
            rw [show escChar '\r' ++ (escStr s' ++ '"' :: rest) =
              '\\' :: 'r' :: (escStr s' ++ '"' :: rest) from rfl, psbF_esc, psbEsc_r, ihk]
            rfl
          · by_cases h5 : c = '\t'
            · subst h5
              rw [show escChar '\t' ++ (escStr s' ++ '"' :: rest) =
                '\\' :: 't' :: (escStr s' ++ '"' :: rest) from rfl, psbF_esc, psbEsc_t, ihk]
              rfl
            · by_cases h6 : c.toNat = 8
              · have hc : c = '\x08' := by rw [← Char.ofNat_toNat c, h6]
                subst hc
                rw [show escChar '\x08' ++ (escStr s' ++ '"' :: rest) =
                  '\\' :: 'b' :: (escStr s' ++ '"' :: rest) from rfl, psbF_esc, psbEsc_b, ihk]
                rfl
              · by_cases h7 : c.toNat = 12
                · have hc : c = '\x0c' := by rw [← Char.ofNat_toNat c, h7]
                  subst hc
                  rw [show escChar '\x0c' ++ (escStr s' ++ '"' :: rest) =
                    '\\' :: 'f' :: (escStr s' ++ '"' :: rest) from rfl, psbF_esc, psbEsc_f, ihk]
                  rfl
                · by_cases h8 : c.toNat < 32
                  · have hesc : escChar c = '\\' :: 'u' :: hex4 c.toNat := by
                      rw [escChar, if_neg h1, if_neg h2, if_neg h3, if_neg h4, if_neg h5,
                        if_neg h6, if_neg h7, if_pos h8]
                    rw [hesc, hex4,
                      show ('\\' :: 'u' :: [hexDig (c.toNat / 4096 % 16),
                          hexDig (c.toNat / 256 % 16), hexDig (c.toNat / 16 % 16),
                          hexDig (c.toNat % 16)]) ++ (escStr s' ++ '"' :: rest) =
                        '\\' :: 'u' :: hexDig (c.toNat / 4096 % 16) ::
                          hexDig (c.toNat / 256 % 16) :: hexDig (c.toNat / 16 % 16) ::
                          hexDig (c.toNat % 16) :: (escStr s' ++ '"' :: rest) from rfl,
                      psbF_esc, psbEsc_u,
                      psbU_nonsurrogate _ _ (by omega) (by omega) _, ihk]
                    simp [Char.ofNat_toNat]
                  · by_cases h9 : c.toNat < 127
                    · rw [show escChar c ++ (escStr s' ++ '"' :: rest) =
                        c :: (escStr s' ++ '"' :: rest) from by
                          rw [escChar, if_neg h1, if_neg h2, if_neg h3, if_neg h4, if_neg h5,
                            if_neg h6, if_neg h7, if_neg h8, if_pos h9]
                          rfl]
                      rw [psbF_lit k c _ h1 h2 h8, ihk]
                      rfl
                    · have hval := char_valid_nat c
                      by_cases h10 : c.toNat < 65536
                      · have hesc : escChar c = '\\' :: 'u' :: hex4 c.toNat := by
                          rw [escChar, if_neg h1, if_neg h2, if_neg h3, if_neg h4, if_neg h5,
                            if_neg h6, if_neg h7, if_neg h8, if_neg h9, if_pos h10]
                        rw [hesc, hex4,
                          show ('\\' :: 'u' :: [hexDig (c.toNat / 4096 % 16),
                              hexDig (c.toNat / 256 % 16), hexDig (c.toNat / 16 % 16),
                              hexDig (c.toNat % 16)]) ++ (escStr s' ++ '"' :: rest) =
                            '\\' :: 'u' :: hexDig (c.toNat / 4096 % 16) ::
                              hexDig (c.toNat / 256 % 16) :: hexDig (c.toNat / 16 % 16) ::
                              hexDig (c.toNat % 16) :: (escStr s' ++ '"' :: rest) from rfl,
                          psbF_esc, psbEsc_u,
                          psbU_nonsurrogate _ _ (by omega) (by omega) _, ihk]
                        simp [Char.ofNat_toNat]
                      · have hesc : escChar c =
                            '\\' :: 'u' :: hex4 (55296 + (c.toNat - 65536) / 1024) ++
                              ('\\' :: 'u' :: hex4 (56320 + (c.toNat - 65536) % 1024)) := by
                          rw [escChar, if_neg h1, if_neg h2, if_neg h3, if_neg h4, if_neg h5,
                            if_neg h6, if_neg h7, if_neg h8, if_neg h9, if_neg h10]
                        have hdiv : (c.toNat - 65536) / 1024 < 1024 := by omega
                        have hmod : (c.toNat - 65536) % 1024 < 1024 :=
                          Nat.mod_lt _ (by norm_num)
                        have e1 : 55296 + (c.toNat - 65536) / 1024 =
                            (55296 + (c.toNat - 65536) / 1024) := rfl
                        rw [hesc]
                        rw [show (('\\' :: 'u' :: hex4 (55296 + (c.toNat - 65536) / 1024) ++
                            ('\\' :: 'u' :: hex4 (56320 + (c.toNat - 65536) % 1024)))
                              ++ (escStr s' ++ '"' :: rest)) =
                          '\\' :: 'u' ::
                            hexDig ((55296 + (c.toNat - 65536) / 1024) / 4096 % 16) ::
                            hexDig ((55296 + (c.toNat - 65536) / 1024) / 256 % 16) ::
                            hexDig ((55296 + (c.toNat - 65536) / 1024) / 16 % 16) ::
                            hexDig ((55296 + (c.toNat - 65536) / 1024) % 16) ::
                            ('\\' :: 'u' :: hex4 (56320 + (c.toNat - 65536) % 1024) ++
                              (escStr s' ++ '"' :: rest)) from by
                            simp [hex4, List.cons_append, List.append_assoc]]
                        rw [psbF_esc, psbEsc_u,
                          psbU_surrogate _ _ _ (by omega) (by omega) (by omega) (by omega) _,
                          ihk]
                        have hrec : 65536 + 1024 * ((55296 + (c.toNat - 65536) / 1024) - 55296)
                            + ((56320 + (c.toNat - 65536) % 1024) - 56320) = c.toNat := by
                          have := Nat.div_add_mod (c.toNat - 65536) 1024
                          omega
                        rw [hrec]
                        simp [Char.ofNat_toNat]

set_option maxHeartbeats 1000000 in
theorem escChar_length_pos (c : Char) : 1 ≤ (escChar c).length := by
  rw [escChar]
  split_ifs <;> simp [hex4]

theorem escStr_length (s : PyStr) : s.length ≤ (escStr s).length := by
  induction s with
  | nil => simp [escStr]
  | cons c s' ih =>
    rw [escStr]
    have := escChar_length_pos c
    simp only [List.length_append, List.length_cons]
    omega

theorem parseStrBody_escStr (s rest : PyStr) :
    parseStrBody (escStr s ++ '"' :: rest) = some (s, rest) := by
  have hl : s.length + 1 ≤ (escStr s ++ '"' :: rest).length + 1 := by
    have := escStr_length s
    simp only [List.length_append, List.length_cons]
    omega
  exact parseStrBodyF_escStr s rest _ hl

theorem parseKeyQ (X : PyStr) :
    parseStrBody ('q' :: 'u' :: 'e' :: 's' :: 't' :: 'i' :: 'o' :: 'n' :: '"' ::X) =
      some ("question".data, X) :=
  parseStrBody_escStr "question".data X

theorem parseKeyA (X : PyStr) :
    parseStrBody ('a' :: 'n' :: 's' :: 'w' :: 'e' :: 'r' :: '"' ::X) = some ("answer".data, X) :=
  parseStrBody_escStr "answer".data X

theorem skipWs_space (s : PyStr) : skipWs (' ' :: s) = skipWs s := by rw [skipWs]; rfl

theorem skipWs_nl (s : PyStr) : skipWs ('\n' :: s) = skipWs s := by rw [skipWs]; rfl

theorem skipWs_lbrace (s : PyStr) : skipWs ('\x7b' :: s) = '\x7b' :: s := by rw [skipWs]; rfl

theorem skipWs_rbrace (s : PyStr) : skipWs ('\x7d' :: s) = '\x7d' :: s := by rw [skipWs]; rfl

theorem skipWs_dquote (s : PyStr) : skipWs ('"' :: s) = '"' :: s := by rw [skipWs]; rfl

theorem skipWs_colon (s : PyStr) : skipWs (':' :: s) = ':' :: s := by rw [skipWs]; rfl

theorem skipWs_comma (s : PyStr) : skipWs (',' :: s) = ',' :: s := by rw [skipWs]; rfl

theorem skipWs_lbrack (s : PyStr) : skipWs ('[' :: s) = '[' :: s := by rw [skipWs]; rfl

theorem skipWs_rbrack (s : PyStr) : skipWs (']' :: s) = ']' :: s := by rw [skipWs]; rfl

theorem skipWs_nil : skipWs [] = [] := rfl

theorem expectChar_eq (c : Char) (s : PyStr) : expectChar c (c :: s) = some s := by
  rw [expectChar, if_pos rfl]

theorem parseCard_dumpsCard (q a : PyStr) (tail : PyStr) :
    parseCard (dumpsCard ⟨q, a⟩ ++ tail) = some ((⟨q, a⟩ : Flashcard), tail) := by
  rw [show dumpsCard ⟨q, a⟩ ++ tail =
    ' ' :: ' ' :: '\x7b' :: '\n' :: ' ' :: ' ' :: ' ' :: ' ' :: '"' ::
    'q' :: 'u' :: 'e' :: 's' :: 't' :: 'i' :: 'o' :: 'n' :: '"' :: ':' :: ' ' :: '"' ::
    (escStr q ++ '"' :: ',' :: '\n' :: ' ' :: ' ' :: ' ' :: ' ' :: '"' ::
     'a' :: 'n' :: 's' :: 'w' :: 'e' :: 'r' :: '"' :: ':' :: ' ' :: '"' ::
     (escStr a ++ '"' :: '\n' :: ' ' :: ' ' :: '\x7d' :: tail)) from by
      rw [dumpsCard]
      simp [List.append_assoc]]
  simp only [parseCard, skipWs_space, skipWs_nl, skipWs_lbrace, skipWs_rbrace,
    skipWs_dquote, skipWs_colon, skipWs_comma, expectChar_eq, Option.some_bind,
    parseKeyQ, parseKeyA, parseStrBody_escStr, reduceIte, Option.map_some]
  rfl

theorem parseCard_nl (s : PyStr) : parseCard ('\n' :: s) = parseCard s := by
  rw [parseCard]
  rw [skipWs_nl]
  rw [parseCard]

theorem dumpsRest_length (cs : List Flashcard) : cs.length ≤ (dumpsRest cs).length := by
  induction cs with
  | nil => simp [dumpsRest]
  | cons c cs ih =>
    rw [dumpsRest]
    simp only [List.length_append, List.length_cons,
      show (",\n".data).length = 2 from rfl]
    omega

theorem parseItemsRest_dumpsRest (cs : List Flashcard) :
    ∀ fuel, cs.length + 1 ≤ fuel → ∀ tail : PyStr,
      parseItemsRest fuel (dumpsRest cs ++ '\n' :: ']' :: tail) = some (cs, tail) := by
  induction cs with
  | nil =>
    intro fuel hf tail
    obtain ⟨k, rfl⟩ : ∃ k, fuel = k + 1 := ⟨fuel - 1, by omega⟩
    show parseItemsRest (k + 1) ('\n' :: ']' :: tail) = some ([], tail)
    rw [parseItemsRest, skipWs_nl, skipWs_rbrack]
    rfl
  | cons c cs' ih =>
    intro fuel hf tail
    obtain ⟨k, rfl⟩ : ∃ k, fuel = k + 1 := ⟨fuel - 1, by omega⟩
    obtain ⟨q, a⟩ := c
    rw [show dumpsRest (⟨q, a⟩ :: cs') ++ '\n' :: ']' :: tail =
      ',' :: '\n' :: (dumpsCard ⟨q, a⟩ ++ (dumpsRest cs' ++ '\n' :: ']' :: tail)) from by
        rw [dumpsRest]
        simp [List.append_assoc]]
    rw [parseItemsRest, skipWs_comma]
    simp only [parseCard_nl, parseCard_dumpsCard, Option.some_bind,
      ih k (by simpa using hf) tail, Option.map_some]
    rfl

theorem decode_json_dumps (cards : List Flashcard) :
    decode_flashcards (json_dumps cards) = some cards := by
  cases cards with
  | nil => decide
  | cons c cs =>
    obtain ⟨q, a⟩ := c
    rw [show json_dumps (⟨q, a⟩ :: cs) =
      '[' :: '\n' :: (dumpsCard ⟨q, a⟩ ++ (dumpsRest cs ++ '\n' :: ']' :: [])) from by
        rw [json_dumps]
        simp [List.append_assoc]]
    rw [decode_flashcards, skipWs_lbrack, expectChar_eq, Option.some_bind]
    rw [show skipWs ('\n' :: (dumpsCard ⟨q, a⟩ ++ (dumpsRest cs ++ '\n' :: ']' :: []))) =
      skipWs (' ' :: ' ' :: '\x7b' ::
        ("\n    \"question\": \"".data ++ escStr q ++ "\",\n    \"answer\": \"".data ++
          escStr a ++ "\"\n  \x7d".data ++ (dumpsRest cs ++ '\n' :: ']' :: []))) from by
        rw [skipWs_nl]
        rfl]
    rw [skipWs_space, skipWs_space, skipWs_lbrace]
    simp only [parseCard_nl, parseCard_dumpsCard, Option.some_bind]
    rw [parseItemsRest_dumpsRest cs _ (by
      have := dumpsRest_length cs
      simp only [List.length_append]
      omega) []]
    rfl

/-- Claim C1 (code bug witness): the spec says the question and answer text
is the remainder of the line after the matched marker, trimmed; the code
slices `line[2:]` regardless of which marker matched, so the long markers
"Question:" and "Answer:" leave their own tail inside the field.  At the
failing input the record keeps "estion:" and "swer:" instead of the
payloads "What is 2+2?" and "4". -/
theorem claim_C1 :
    parse_flashcards "Question: What is 2+2?\nAnswer: 4".data =
      [⟨"estion: What is 2+2?".data, "swer: 4".data⟩] := by decide

/-- Claim C2, counterexample: the invariant "question is non-empty" fails;
the single-line input "Q:" yields a finalized record whose question is the
empty string. -/
theorem claim_C2_counterexample :
    ∃ c ∈ parse_flashcards "Q:".data, c.question = [] := by decide

/-- Claim C2 (amended): once a record is appended to the output sequence it
is never mutated — every parsing step only appends to the record list, and
after processing any prefix of the lines the records accumulated so far
form an unchanged prefix of the final result.  The question field may be
empty (see the counterexample); the answer may be empty as well. -/
theorem claim_C2 :
    (∀ (st : List Flashcard × Option Flashcard) (l : PyStr),
        ∃ t, (parseLine st l).1 = st.1 ++ t) ∧
    (∀ (text : PyStr) (lines1 lines2 : List PyStr),
        splitNl text = lines1 ++ lines2 →
        ∃ t, parse_flashcards text =
          (lines1.foldl parseLine ([], none)).1 ++ t) := by
  refine ⟨parseLine_extends, fun text lines1 lines2 h => ?_⟩
  rw [parse_flashcards_eq, h, List.foldl_append]
  obtain ⟨t2, h2⟩ := foldl_parseLine_extends lines2 (lines1.foldl parseLine ([], none))
  exact ⟨t2 ++ _, by rw [h2, List.append_assoc]⟩

/-- Claim C2, witness: the amended theorem applied at a concrete input. -/
theorem claim_C2_witness :
    ∃ t, parse_flashcards "Q: a\nA: b\nQ: c".data =
      ((["Q: a".data, "A: b".data]).foldl parseLine ([], none)).1 ++ t :=
  claim_C2.2 "Q: a\nA: b\nQ: c".data ["Q: a".data, "A: b".data]
    ["Q: c".data] (by decide)

/-- Claim C3: for a text of N well-formed pairs — each pair a line starting
with "Q:" followed by a line starting with "A:" — parse returns exactly the
N records, in the order of the pairs, each field being the text after the
marker on its line, trimmed of surrounding whitespace. -/
theorem claim_C3 (pairs : List (PyStr × PyStr))
    (h : ∀ p ∈ pairs, '\n' ∉ p.1 ∧ '\n' ∉ p.2) :
    parse_flashcards (pairsText pairs) =
      pairs.map fun p => ⟨pyStrip p.1, pyStrip p.2⟩ := by
  rw [parse_flashcards_eq, foldl_pairsText pairs h []]
  simp

/-- Claim C3, witness: the specification's own example, two pairs. -/
theorem claim_C3_witness :
    parse_flashcards (pairsText [(" What is 2+2?".data, " 4".data),
        (" Capital of France?".data, " Paris".data)]) =
      [⟨"What is 2+2?".data, "4".data⟩,
        ⟨"Capital of France?".data, "Paris".data⟩] :=
  (claim_C3 _ (by decide)).trans (by decide)

/-- Claim C4: the structured (JSON) export round-trips — decoding the
document exported for parse(text) reconstructs exactly parse(text), for
every input text. -/
theorem claim_C4 (text : PyStr) :
    decode_flashcards (export_flashcards (parse_flashcards text) "json".data) =
      some (parse_flashcards text) := by
  rw [show export_flashcards (parse_flashcards text) "json".data =
    json_dumps (parse_flashcards text) from rfl]
  exact decode_json_dumps (parse_flashcards text)

/-- Claim C5: parse is total (it always yields a result), and when no line
of the input carries one of the four recognized markers the result is the
empty sequence. -/
theorem claim_C5 (text : PyStr) :
    (∃ r, parse_flashcards text = r) ∧
      ((∀ l ∈ splitNl text, isMarkerLine l = false) →
        parse_flashcards text = []) := by
  refine ⟨⟨_, rfl⟩, fun h => ?_⟩
  rw [parse_flashcards_eq, foldl_no_marker _ h]
  rfl

/-- Claim C5, witness: a marker-free input parses to the empty sequence. -/
theorem claim_C5_witness : parse_flashcards "hello\nworld".data = [] :=
  (claim_C5 "hello\nworld".data).2 (by decide)

/-- Claim C6: exporting the empty record sequence yields, for csv, only the
header row "Question,Answer" (with the csv.writer line terminator); for
json, the empty-array document "[]"; and for anki, the empty string. -/
theorem claim_C6 :
    export_flashcards [] "csv".data = "Question,Answer\r\n".data ∧
      export_flashcards [] "json".data = "[]".data ∧
      export_flashcards [] "anki".data = [] := by decide

/-- Claim C7: for any format other than the three recognized values, export
returns the empty string whatever the records are. -/
theorem claim_C7 (cards : List Flashcard) (format : PyStr)
    (h1 : format ≠ "json".data) (h2 : format ≠ "csv".data)
    (h3 : format ≠ "anki".data) :
    export_flashcards cards format = [] := by
  rw [export_flashcards, if_neg h1, if_neg h2, if_neg h3]

/-- Claim C7, witness: the format "xml" yields the empty string. -/
theorem claim_C7_witness :
    export_flashcards [⟨"q".data, "a".data⟩] "xml".data = [] :=
  claim_C7 _ _ (by decide) (by decide) (by decide)

/-- Claim C8: marker matching is boundary-aware and case-sensitive — a line
starting with "Questionnaire:" is no marker at all (with no pending record
the parser state is unchanged, whatever follows the word), and only the
exact casings "Q:"/"Question:" start a record. -/
theorem claim_C8 :
    (∀ (cards : List Flashcard) (rest : PyStr),
        parseLine (cards, none) ("Questionnaire:".data ++ rest) = (cards, none)) ∧
    isQLine "Questionnaire: survey".data = false ∧
    isQLine "q: x".data = false ∧
    isQLine "question: x".data = false ∧
    isQLine "Q: x".data = true ∧
    isQLine "Question: x".data = true := by
  refine ⟨?_, by decide, by decide, by decide, by decide, by decide⟩
  intro cards rest
  have hstrip : pyStrip ("Questionnaire:".data ++ rest) =
      "Questionnaire:".data ++ rstrip rest :=
    pyStrip_cons_append (by decide) "uestionnaire:".data rest (by decide)
  have hm : isMarkerLine ("Questionnaire:".data ++ rest) = false := by
    rw [isMarkerLine, isQLine, hstrip]
    have e : "Questionnaire:".data ++ rstrip rest =
        'Q' :: 'u' :: 'e' :: 's' :: 't' :: 'i' :: 'o' :: 'n' :: 'n' :: 'a' :: 'i' :: 'r' :: 'e' :: ':' :: rstrip rest :=
      rfl
    rw [e]
    simp [startswith_cons, show "Q:".data = ['Q', ':'] from rfl,
      show "Question:".data = ['Q','u','e','s','t','i','o','n',':'] from rfl,
      show "A:".data = ['A', ':'] from rfl,
      show "Answer:".data = ['A','n','s','w','e','r',':'] from rfl]
  rw [parseLine_of_other _ _ hm]

/-- Claim C8, witness: the first conjunct applied at a concrete state. -/
theorem claim_C8_witness :
    parseLine ([], none) ("Questionnaire:".data ++ " survey".data) = ([], none) :=
  claim_C8.1 [] " survey".data

/-- Claim C9: the number of records returned equals the number of lines
whose trimmed text starts with "Q:" or "Question:" — every question-marker
line yields exactly one record and nothing else creates records. -/
theorem claim_C9 (text : PyStr) :
    (parse_flashcards text).length = (splitNl text).countP isQLine := by
  rw [parse_flashcards_eq]
  have h := foldl_parseLine_count (splitNl text) ([], none)
  cases h2 : ((splitNl text).foldl parseLine ([], none)).2 <;>
    simp [h2, curCount] at h ⊢ <;> omega

/-- Claim C10: every record of a parse result carries both a question and an
answer string, and export applied to a parse result with any recognized
format is total. -/
theorem claim_C10 (text : PyStr) :
    (∀ card ∈ parse_flashcards text, ∃ qv av : PyStr, card = ⟨qv, av⟩) ∧
    (∀ format : PyStr,
        format = "json".data ∨ format = "csv".data ∨ format = "anki".data →
        ∃ out : PyStr, export_flashcards (parse_flashcards text) format = out) :=
  ⟨fun card _ => ⟨card.question, card.answer, rfl⟩, fun _ _ => ⟨_, rfl⟩⟩

/-- Claim C10, witness: csv export of a parse result exists. -/
theorem claim_C10_witness :
    ∃ out : PyStr,
      export_flashcards (parse_flashcards "Q: a\nA: b".data) "csv".data = out :=
  (claim_C10 "Q: a\nA: b".data).2 "csv".data (Or.inr (Or.inl rfl))
